import Mathlib

/-!
Verification of the ticket-listing application's core logic:

* the search-filter mini-language parser, embedded from
  `app/controllers/tickets_controller.ts` (`index`, lines 9-37), and
* the analytics aggregation engine, embedded from the `SecurityDashboard`
  component's `useMemo` block (`inertia/pages/index.tsx`, lines 60-112).

Machine integers (JS numbers holding epoch milliseconds, counts) are modelled
as `Int`/`Nat`; the single fractional quantity (`avgTicketsPerDay`) is
modelled over `ℚ`.  Two ambient parameters of the JS runtime enter the model
explicitly: `tz`, the local-timezone offset in minutes east of UTC (the
controller parses dates with `date-fns` in local time and the dashboard
derives month keys via the local-time `getFullYear`/`getMonth`), and `now`,
the value of `Date.now()` read inside the aggregation.
-/

/-! ## Characters and strings: the JS primitives used by the code -/

/-- The character class of JavaScript's `\s` (and of `String.prototype.trim`):
whitespace plus line terminators.  The literal characters below are, in
order: U+00A0, U+1680, the range U+2000-U+200A, U+2028, U+2029, U+202F,
U+205F, U+3000 and U+FEFF. -/
def isJsSpace (c : Char) : Bool :=
  c == ' ' || c == '\t' || c == '\n' || c == '\r' || c == '\x0b' || c == '\x0c' ||
  c == ' ' || c == ' ' ||
  (decide (' ' ≤ c) && decide (c ≤ ' ')) ||
  c == ' ' || c == ' ' || c == ' ' || c == ' ' ||
  c == '　' || c == '﻿'

/-- The characters that the regex metacharacter `.` does not match
(ECMAScript line terminators): LF, CR and the literals U+2028, U+2029. -/
def isLineTerm (c : Char) : Bool :=
  c == '\n' || c == '\r' || c == ' ' || c == ' '

/-- The ASCII upper-to-lower case table. -/
def upperLowerTable : List (Char × Char) :=
  [('A', 'a'), ('B', 'b'), ('C', 'c'), ('D', 'd'), ('E', 'e'), ('F', 'f'),
   ('G', 'g'), ('H', 'h'), ('I', 'i'), ('J', 'j'), ('K', 'k'), ('L', 'l'),
   ('M', 'm'), ('N', 'n'), ('O', 'o'), ('P', 'p'), ('Q', 'q'), ('R', 'r'),
   ('S', 's'), ('T', 't'), ('U', 'u'), ('V', 'v'), ('W', 'w'), ('X', 'x'),
   ('Y', 'y'), ('Z', 'z')]

/-- ASCII case folding performed by `String.prototype.toLowerCase` (the
inputs handled by this application are ASCII; the non-ASCII part of Unicode
case mapping is outside the model). -/
def jsLowerChar (c : Char) : Char :=
  match upperLowerTable.find? (fun p => p.1 == c) with
  | some p => p.2
  | none => c

/-- Drop leading JS whitespace. -/
def trimL (l : List Char) : List Char := l.dropWhile isJsSpace

/-- Drop trailing JS whitespace. -/
def trimR (l : List Char) : List Char := (l.reverse.dropWhile isJsSpace).reverse

/-- `String.prototype.trim` on the character list. -/
def trimList (l : List Char) : List Char := trimR (trimL l)

/-- `String.prototype.trim`. -/
def jsTrim (s : String) : String := ⟨trimList s.data⟩

/-- `String.prototype.toLowerCase` (ASCII fragment). -/
def jsLower (s : String) : String := ⟨s.data.map jsLowerChar⟩

/-! ## The filter regex `/^(before|after|reporter):(\S+)(.*)$/` -/

/-- Match a literal character sequence at the head of `l`, returning the
remainder on success. -/
def dropLit? : List Char → List Char → Option (List Char)
  | [], l => some l
  | _ :: _, [] => none
  | p :: ps, c :: cs => if p = c then dropLit? ps cs else none

/-- The three qualifier words of the alternation `(before|after|reporter)`. -/
inductive Qual where
  | before
  | after
  | reporter
deriving DecidableEq, Repr

def qualWord : Qual → String
  | .before => "before"
  | .after => "after"
  | .reporter => "reporter"

/-- Match the anchored prefix `^(before|after|reporter):` of the regex. -/
def findQual (l : List Char) : Option (Qual × List Char) :=
  match dropLit? "before:".data l with
  | some r => some (Qual.before, r)
  | none =>
    match dropLit? "after:".data l with
    | some r => some (Qual.after, r)
    | none =>
      match dropLit? "reporter:".data l with
      | some r => some (Qual.reporter, r)
      | none => none

/-- `searchParam.match(/^(before|after|reporter):(\S+)(.*)$/)`: after the
qualifier and colon, `(\S+)` captures the maximal non-empty run of
non-whitespace characters, and `(.*)$` captures the remainder, which must
contain no line terminator (`.` never matches one, with no `s`/`m` flags). -/
def matchFilter (l : List Char) : Option (Qual × List Char × List Char) :=
  match findQual l with
  | none => none
  | some (q, rest) =>
    let tok := rest.takeWhile (fun c => !(isJsSpace c))
    let rem := rest.dropWhile (fun c => !(isJsSpace c))
    if tok.isEmpty then none
    else if rem.any isLineTerm then none
    else some (q, tok, rem)

/-- Whether a string starts with a recognized qualifier word, a colon and a
non-empty (non-whitespace) token: the part of `matchFilter` that the spec's
grammar talks about. -/
def startsWithQualTok (s : String) : Bool :=
  match findQual s.data with
  | none => false
  | some (_, rest) => !(rest.takeWhile (fun c => !(isJsSpace c))).isEmpty

/-! ## Dates: `date-fns` `parse(value, 'dd/MM/yyyy', new Date())` -/

def natOfDigits (l : List Char) : Nat :=
  l.foldl (fun a c => a * 10 + (c.toNat - '0'.toNat)) 0

def isLeap (y : Nat) : Bool :=
  (y % 4 == 0 && y % 100 != 0) || y % 400 == 0

def daysInMonth (y m : Nat) : Nat :=
  if m = 2 then (if isLeap y then 29 else 28)
  else if m = 4 ∨ m = 6 ∨ m = 9 ∨ m = 11 then 30 else 31

/-- `date-fns` parsing of a token against the format `dd/MM/yyyy`: `dd` and
`MM` consume one or two digits, `yyyy` one to four, the separators must be
`/`, nothing may remain, and the field values must form a real calendar date
(otherwise `isValid` is false and the controller drops the field).  Returns
the calendar triple `(year, month, day)`. -/
def dateFromToken (tok : List Char) : Option (Int × Int × Int) :=
  let p1 := tok.span Char.isDigit
  match p1.2 with
  | '/' :: r2 =>
    let p2 := r2.span Char.isDigit
    match p2.2 with
    | '/' :: r4 =>
      let p3 := r4.span Char.isDigit
      if p1.1.isEmpty || 2 < p1.1.length || p2.1.isEmpty || 2 < p2.1.length ||
         p3.1.isEmpty || 4 < p3.1.length || !p3.2.isEmpty then none
      else
        let d := natOfDigits p1.1
        let m := natOfDigits p2.1
        let y := natOfDigits p3.1
        if 1 ≤ y && 1 ≤ m && m ≤ 12 && 1 ≤ d && d ≤ daysInMonth y m then
          some ((y : Int), (m : Int), (d : Int))
        else none
    | _ => none
  | _ => none

/-- Days from the civil epoch 1970-01-01 to year `y`, month `m`, day `d`
(proleptic Gregorian; Howard Hinnant's `days_from_civil`). -/
def daysFromCivil (y m d : Int) : Int :=
  let y2 := if m ≤ 2 then y - 1 else y
  let era := Int.fdiv y2 400
  let yoe := y2 - era * 400
  let mp := Int.emod (m + 9) 12
  let doy := Int.fdiv (153 * mp + 2) 5 + d - 1
  let doe := yoe * 365 + Int.fdiv yoe 4 - Int.fdiv yoe 100 + doy
  era * 146097 + doe - 719468

/-- The epoch-millisecond instant of local midnight of a calendar day, for a
runtime whose local timezone is `tz` minutes east of UTC.  This is the value
`date-fns` `parse(value, 'dd/MM/yyyy', new Date())` produces on success. -/
def localMidnightMs (tz : Int) (ymd : Int × Int × Int) : Int :=
  daysFromCivil ymd.1 ymd.2.1 ymd.2.2 * 86400000 - tz * 60000

/-- `Date.prototype.setUTCHours(23, 59, 59, 999)`: keep the UTC calendar day
of the instant and move the time of day to its last millisecond. -/
def endOfUtcDay (t : Int) : Int :=
  Int.fdiv t 86400000 * 86400000 + 86399999

/-- The epoch-millisecond instant of a UTC calendar date and time of day. -/
def utcMs (y m d h mi sec ms : Int) : Int :=
  daysFromCivil y m d * 86400000 + h * 3600000 + mi * 60000 + sec * 1000 + ms

/-! ## The controller's filter structure and its construction -/

/-- The `filters` object of `TicketsController.index`; every field starts out
`undefined`. -/
structure Filters where
  beforeDate : Option Int := none
  afterDate : Option Int := none
  reporterEmail : Option String := none
  searchValue : Option String := none
deriving DecidableEq, Repr

/-- Lines 9-37 of `tickets_controller.ts`: trim the `search` input, match it
against the filter regex, and build `filters`.  On a match, the remainder is
trimmed and lowercased into `searchValue` and the branch for the qualifier
fills its one field (`before`/`after` only when the token is a valid
`dd/MM/yyyy` date, the `after` instant moved to 23:59:59.999 UTC); with no
match the whole trimmed input is trimmed again and lowercased into
`searchValue`. -/
def parseFilters (tz : Int) (input : String) : Filters :=
  match matchFilter (trimList input.data) with
  | some (Qual.before, tok, rem) =>
    { beforeDate := (dateFromToken tok).map (fun ymd => localMidnightMs tz ymd),
      searchValue := some ⟨(trimList rem).map jsLowerChar⟩ }
  | some (Qual.after, tok, rem) =>
    { afterDate := (dateFromToken tok).map (fun ymd => endOfUtcDay (localMidnightMs tz ymd)),
      searchValue := some ⟨(trimList rem).map jsLowerChar⟩ }
  | some (Qual.reporter, tok, rem) =>
    { reporterEmail := some ⟨(trimList tok).map jsLowerChar⟩,
      searchValue := some ⟨(trimList rem).map jsLowerChar⟩ }
  | none =>
    { searchValue := some ⟨(trimList (trimList input.data)).map jsLowerChar⟩ }

/-! ## The analytics aggregation engine (`SecurityDashboard`) -/

/-- The `Ticket` record of `inertia/pages/index.tsx`; `labels` is optional. -/
structure Ticket where
  id : String
  title : String
  content : String
  creationTime : Int
  userEmail : String
  labels : Option (List String)
deriving DecidableEq, Repr

structure Stats where
  totalTickets : Nat
  uniqueReporters : Nat
  mostCommonLabel : String
  avgTicketsPerDay : ℚ
deriving DecidableEq, Repr

/-- The `Analytics` value computed in the `useMemo` block.  The three
sequences hold `{name, value}`, `{month, count}` and `{email, count}`
objects, modelled as pairs. -/
structure Analytics where
  labelData : List (String × Nat)
  timeline : List (String × Nat)
  topReporters : List (String × Nat)
  stats : Stats
deriving DecidableEq, Repr

/-- `counts[key] = (counts[key] || 0) + 1` on a JS object: an existing key
keeps its insertion position, a new key is appended.  (JS objects preserve
insertion order for the string keys this code produces.) -/
def bump : List (String × Nat) → String → List (String × Nat)
  | [], k => [(k, 1)]
  | (k2, n) :: rest, k =>
    if k2 = k then (k2, n + 1) :: rest else (k2, n) :: bump rest k

/-- One step of the stable descending-by-count insertion:
`x` goes in front of the first entry whose count is not larger. -/
def insDesc (x : String × Nat) : List (String × Nat) → List (String × Nat)
  | [] => [x]
  | y :: ys => if x.2 < y.2 then y :: insDesc x ys else x :: y :: ys

/-- `.sort((a, b) => b.count - a.count)`: stable sort, descending by count
(`Array.prototype.sort` is stable, so ties keep first-encountered order). -/
def sortDesc : List (String × Nat) → List (String × Nat)
  | [] => []
  | x :: xs => insDesc x (sortDesc xs)

/-- Stable ascending insertion by the string key. -/
def insAsc (x : String × Nat) : List (String × Nat) → List (String × Nat)
  | [] => [x]
  | y :: ys => if y.1 < x.1 then y :: insAsc x ys else x :: y :: ys

/-- `.sort((a, b) => a.month.localeCompare(b.month))`: stable ascending sort
on the `YYYY-MM` keys (on which locale collation agrees with codepoint
order). -/
def sortAsc : List (String × Nat) → List (String × Nat)
  | [] => []
  | x :: xs => insAsc x (sortAsc xs)

/-- Pass 1 accumulator: per-label counters over every ticket's (possibly
absent) label list, in first-encountered key order. -/
def labelCountsList (ts : List Ticket) : List (String × Nat) :=
  ts.foldl (fun acc t => (t.labels.getD []).foldl bump acc) []

/-- All label occurrences in ticket order (`tickets.forEach` over
`ticket.labels.forEach`), used to state what pass 1 counts. -/
def allLabels : List Ticket → List String
  | [] => []
  | t :: rest => t.labels.getD [] ++ allLabels rest

/-- The `YYYY-MM` month key derived from `new Date(creationTime)` with the
local-calendar `getFullYear()` and zero-padded `getMonth() + 1`, for a
runtime `tz` minutes east of UTC. -/
def monthKey (tz : Int) (t : Int) : String :=
  let day := Int.fdiv (t + tz * 60000) 86400000
  let z := day + 719468
  let era := Int.fdiv z 146097
  let doe := z - era * 146097
  let yoe := Int.fdiv (doe - Int.fdiv doe 1460 + Int.fdiv doe 36524 - Int.fdiv doe 146096) 365
  let doy := doe - (365 * yoe + Int.fdiv yoe 4 - Int.fdiv yoe 100)
  let mp := Int.fdiv (5 * doy + 2) 153
  let m := mp + (if mp < 10 then 3 else -9)
  let y := yoe + era * 400 + (if m ≤ 2 then 1 else 0)
  toString y ++ "-" ++ (if m < 10 then "0" ++ toString m else toString m)

/-- Pass 2 accumulator: tickets per month key, insertion order. -/
def timelineCounts (tz : Int) (ts : List Ticket) : List (String × Nat) :=
  ts.foldl (fun acc t => bump acc (monthKey tz t.creationTime)) []

/-- Pass 3 accumulator: tickets per `userEmail` (verbatim key), insertion
order. -/
def reporterCounts (ts : List Ticket) : List (String × Nat) :=
  ts.foldl (fun acc t => bump acc t.userEmail) []

/-- `Math.min(...tickets.map(t => t.creationTime))`, which is `+Infinity` on
an empty list; the `none` case stands for that infinity. -/
def minCreation : List Ticket → Option Int
  | [] => none
  | t :: rest => some (rest.foldl (fun m t2 => min m t2.creationTime) t.creationTime)

/-- `Math.round`: halves round toward positive infinity. -/
def jround (x : ℚ) : Int := Rat.floor (x + 1 / 2)

/-- `totalTickets / Math.max(1, (Date.now() - min) / 86400000)`, then
`Math.round(avg * 10) / 10`.  With no tickets the minimum is `+Infinity`, the
elapsed-days term is `-Infinity` and the `Math.max` guard makes the divisor
1. -/
def avgTicketsPerDayOf (now : Int) (ts : List Ticket) : ℚ :=
  let raw : ℚ :=
    match minCreation ts with
    | none => (ts.length : ℚ) / 1
    | some m => (ts.length : ℚ) / (max 1 (((now : ℚ) - (m : ℚ)) / 86400000))
  (jround (raw * 10) : ℚ) / 10

def labelDataOf (ts : List Ticket) : List (String × Nat) :=
  sortDesc (labelCountsList ts)

def timelineOf (tz : Int) (ts : List Ticket) : List (String × Nat) :=
  sortAsc (timelineCounts tz ts)

/-- `.slice(0, 10)` after the stable descending sort. -/
def topReportersOf (ts : List Ticket) : List (String × Nat) :=
  (sortDesc (reporterCounts ts)).take 10

/-- `labelData[0]?.name || 'None'` (a falsy empty-string label also yields
the sentinel). -/
def mostCommonLabelOf (ts : List Ticket) : String :=
  match labelDataOf ts with
  | [] => "None"
  | p :: _ => if p.1 = "" then "None" else p.1

/-- The whole `useMemo` aggregation, lines 60-112 of
`inertia/pages/index.tsx`: four independent passes plus derived stats.
`tz` is the runtime's local-timezone offset (minutes east of UTC) used by
the month keys; `now` is the `Date.now()` reading used by
`avgTicketsPerDay`. -/
def aggregate (tz now : Int) (ts : List Ticket) : Analytics :=
  { labelData := labelDataOf ts
    timeline := timelineOf tz ts
    topReporters := topReportersOf ts
    stats :=
      { totalTickets := ts.length
        uniqueReporters := (reporterCounts ts).length
        mostCommonLabel := mostCommonLabelOf ts
        avgTicketsPerDay := avgTicketsPerDayOf now ts } }

/-! ## Support definitions for the stated properties -/

/-- At most one of the three qualifier fields is set. -/
def atMostOneQualSet (f : Filters) : Prop :=
  (f.beforeDate = none ∧ f.afterDate = none) ∨
  (f.beforeDate = none ∧ f.reporterEmail = none) ∨
  (f.afterDate = none ∧ f.reporterEmail = none)

/-- Whether a string is empty or starts with JS whitespace, i.e. whether the
text after a qualifier's colon yields an empty `\S+` token. -/
def headAllSpace (s : String) : Bool :=
  match s.data with
  | [] => true
  | c :: _ => isJsSpace c

/-- Total count credited to key `k` by a `{key, count}` sequence. -/
def msum (l : List (String × Nat)) (k : String) : Nat :=
  ((l.filter (fun p => p.1 == k)).map (fun p => p.2)).sum

/-- A one-ticket input used to exhibit the `Date.now()` dependence of
`avgTicketsPerDay`. -/
def c3Ticket : Ticket :=
  { id := "1", title := "t", content := "c", creationTime := 0,
    userEmail := "a@b.com", labels := some ["xss"] }

/-- Three tickets labeled `["xss"]` and one labeled `["xss", "sqli"]`. -/
def c9Tickets : List Ticket :=
  [{ id := "1", title := "t1", content := "c1", creationTime := 0,
     userEmail := "a@b.com", labels := some ["xss"] },
   { id := "2", title := "t2", content := "c2", creationTime := 1,
     userEmail := "b@b.com", labels := some ["xss"] },
   { id := "3", title := "t3", content := "c3", creationTime := 2,
     userEmail := "c@b.com", labels := some ["xss"] },
   { id := "4", title := "t4", content := "c4", creationTime := 3,
     userEmail := "a@b.com", labels := some ["xss", "sqli"] }]

def mkC8Ticket (i : Nat) (e : String) : Ticket :=
  { id := toString i, title := "t", content := "c", creationTime := (i : Int),
    userEmail := e, labels := none }

/-- Fifteen tickets drawn from twelve distinct reporter emails. -/
def c8Tickets : List Ticket :=
  [mkC8Ticket 1 "r1@x.com", mkC8Ticket 2 "r1@x.com", mkC8Ticket 3 "r1@x.com",
   mkC8Ticket 4 "r2@x.com", mkC8Ticket 5 "r2@x.com",
   mkC8Ticket 6 "r3@x.com", mkC8Ticket 7 "r4@x.com", mkC8Ticket 8 "r5@x.com",
   mkC8Ticket 9 "r6@x.com", mkC8Ticket 10 "r7@x.com", mkC8Ticket 11 "r8@x.com",
   mkC8Ticket 12 "r9@x.com", mkC8Ticket 13 "r10@x.com", mkC8Ticket 14 "r11@x.com",
   mkC8Ticket 15 "r12@x.com"]

/-! ## Lemmas about JS trimming and lowercasing -/

lemma dropWhile_append_keep (p : Char → Bool) (x y : List Char)
    (h : ∀ c, y.head? = some c → p c = false) :
    (x ++ y).dropWhile p = x.dropWhile p ++ y := by
  induction x with
  | nil =>
    simp only [List.nil_append]
    cases y with
    | nil => rfl
    | cons a as => simp [List.dropWhile_cons, h a rfl]
  | cons a as ih =>
    simp only [List.cons_append, List.dropWhile_cons]
    by_cases hp : p a <;> simp [hp, ih]

lemma dropWhile_append_split (p : Char → Bool) (x y : List Char) :
    (x ++ y).dropWhile p =
      if (x.dropWhile p).isEmpty then y.dropWhile p else x.dropWhile p ++ y := by
  induction x with
  | nil => simp
  | cons a as ih =>
    simp only [List.cons_append, List.dropWhile_cons]
    by_cases hp : p a <;> simp [hp, ih]

lemma head?_dropWhile_false (p : Char → Bool) (l : List Char) (c : Char)
    (h : (l.dropWhile p).head? = some c) : p c = false := by
  have h2 := List.head?_dropWhile_not p l
  rw [h] at h2
  exact h2

lemma dropWhile_self_of_head (p : Char → Bool) (l : List Char)
    (h : ∀ c, l.head? = some c → p c = false) : l.dropWhile p = l := by
  cases l with
  | nil => rfl
  | cons a as => simp [List.dropWhile_cons, h a rfl]

lemma dropWhile_twice (p : Char → Bool) (l : List Char) :
    (l.dropWhile p).dropWhile p = l.dropWhile p :=
  dropWhile_self_of_head p _ (fun c h => head?_dropWhile_false p l c h)

lemma trimR_cons (c : Char) (m : List Char) :
    trimR (c :: m) = if isJsSpace c && (trimR m).isEmpty then [] else c :: trimR m := by
  unfold trimR
  rw [List.reverse_cons, dropWhile_append_split]
  rcases hd : m.reverse.dropWhile isJsSpace with _ | ⟨a, as⟩
  · simp only [List.isEmpty_nil, if_true, List.reverse_nil]
    by_cases hc : isJsSpace c <;> simp [List.dropWhile_cons, hc]
  · simp [List.reverse_append]

lemma trimR_head? (r : List Char) (d : Char) (h : (trimR r).head? = some d) :
    r.head? = some d := by
  induction r with
  | nil => simp [trimR] at h
  | cons c m ih =>
    rw [trimR_cons] at h
    by_cases hc : (isJsSpace c && (trimR m).isEmpty) = true
    · rw [if_pos hc] at h
      simp at h
    · rw [if_neg hc] at h
      simpa using h

lemma trimR_idem (l : List Char) : trimR (trimR l) = trimR l := by
  unfold trimR
  rw [List.reverse_reverse, dropWhile_twice]

lemma trimL_trimList (l : List Char) : trimL (trimList l) = trimList l := by
  apply dropWhile_self_of_head
  intro c hc
  have h1 : (trimL l).head? = some c := trimR_head? (trimL l) c hc
  exact head?_dropWhile_false isJsSpace l c h1

lemma trimList_idem (l : List Char) : trimList (trimList l) = trimList l := by
  show trimR (trimL (trimList l)) = trimList l
  rw [trimL_trimList]
  exact trimR_idem _

lemma trimR_append_lit (a b : List Char) (ha : ∀ c ∈ a, isJsSpace c = false) :
    trimR (a ++ b) = a ++ trimR b := by
  induction a with
  | nil => simp
  | cons c m ih =>
    have hc : isJsSpace c = false := ha c (List.mem_cons_self c m)
    rw [List.cons_append, trimR_cons, ih (fun x hx => ha x (List.mem_cons_of_mem c hx)), hc]
    simp

lemma trimList_lit (a b : List Char) (ha : ∀ c ∈ a, isJsSpace c = false)
    (hne : a ≠ []) : trimList (a ++ b) = a ++ trimR b := by
  show trimR (trimL (a ++ b)) = a ++ trimR b
  rcases a with _ | ⟨c, m⟩
  · exact absurd rfl hne
  · have hc : isJsSpace c = false := ha c (List.mem_cons_self c m)
    rw [show trimL ((c :: m) ++ b) = (c :: m) ++ b from by
      simp [trimL, List.cons_append, List.dropWhile_cons, hc]]
    exact trimR_append_lit _ _ ha

lemma jsLowerChar_space (c : Char) : isJsSpace (jsLowerChar c) = isJsSpace c := by
  unfold jsLowerChar
  rcases hf : upperLowerTable.find? (fun p => p.1 == c) with _ | ⟨p⟩
  · rw [hf]
  · rw [hf]
    have hmem := List.mem_of_find?_eq_some hf
    have hc := List.find?_some hf
    rw [beq_iff_eq] at hc
    subst hc
    fin_cases hmem <;> decide

lemma trimList_map_lower (l : List Char) :
    trimList (l.map jsLowerChar) = (trimList l).map jsLowerChar := by
  have hfun : (isJsSpace ∘ jsLowerChar) = isJsSpace := funext jsLowerChar_space
  unfold trimList trimR trimL
  rw [List.dropWhile_map, hfun, ← List.map_reverse, List.dropWhile_map, hfun, ← List.map_reverse]

lemma jsLower_jsTrim (s : String) : jsLower (jsTrim s) = jsTrim (jsLower s) := by
  show String.mk ((trimList s.data).map jsLowerChar) = String.mk (trimList (s.data.map jsLowerChar))
  rw [trimList_map_lower]

/-! ## Lemmas about the filter parser -/

lemma matchFilter_none_of_swqt (l : List Char) (h : startsWithQualTok ⟨l⟩ = false) :
    matchFilter l = none := by
  unfold startsWithQualTok at h
  unfold matchFilter
  rcases hq : findQual l with _ | ⟨q, rest⟩
  · rfl
  · rw [show (String.mk l).data = l from rfl, hq] at h
    simp only [Bool.not_eq_false'] at h
    simp [h]

/-- The no-match branch of `index`: the whole (doubly) trimmed input is
lowercased into `searchValue` and nothing else is set. -/
lemma plain_fallback (tz : Int) (s : String) (h : startsWithQualTok (jsTrim s) = false) :
    parseFilters tz s =
      { beforeDate := none, afterDate := none, reporterEmail := none,
        searchValue := some (jsLower (jsTrim s)) } := by
  have hm : matchFilter (trimList s.data) = none := matchFilter_none_of_swqt _ h
  unfold parseFilters
  rw [hm]
  show Filters.mk none none none (some ⟨(trimList (trimList s.data)).map jsLowerChar⟩) =
    Filters.mk none none none (some (jsLower (jsTrim s)))
  rw [trimList_idem]
  rfl

lemma dropLit?_self (p x : List Char) : dropLit? p (p ++ x) = some x := by
  induction p with
  | nil => rfl
  | cons a ps ih => simp [dropLit?, ih]

lemma dropLit?_head_ne (a c : Char) (ps cs : List Char) (h : a ≠ c) :
    dropLit? (a :: ps) (c :: cs) = none := by
  simp [dropLit?, h]

lemma findQual_none_of_head (c : Char) (l : List Char)
    (h1 : c ≠ 'b') (h2 : c ≠ 'a') (h3 : c ≠ 'r') : findQual (c :: l) = none := by
  have e1 : dropLit? "before:".data (c :: l) = none := by
    rw [show "before:".data = 'b' :: "efore:".data from rfl]
    exact dropLit?_head_ne _ _ _ _ h1.symm
  have e2 : dropLit? "after:".data (c :: l) = none := by
    rw [show "after:".data = 'a' :: "fter:".data from rfl]
    exact dropLit?_head_ne _ _ _ _ h2.symm
  have e3 : dropLit? "reporter:".data (c :: l) = none := by
    rw [show "reporter:".data = 'r' :: "eporter:".data from rfl]
    exact dropLit?_head_ne _ _ _ _ h3.symm
  unfold findQual
  rw [e1, e2, e3]

lemma findQual_qualColon (q : Qual) (x : List Char) :
    findQual ((qualWord q ++ ":").data ++ x) = some (q, x) := by
  cases q
  · show findQual ("before:".data ++ x) = some (Qual.before, x)
    unfold findQual
    rw [dropLit?_self]
  · show findQual ("after:".data ++ x) = some (Qual.after, x)
    have e1 : dropLit? "before:".data ("after:".data ++ x) = none := by
      rw [show "after:".data ++ x = 'a' :: ("fter:".data ++ x) from rfl,
        show "before:".data = 'b' :: "efore:".data from rfl]
      exact dropLit?_head_ne _ _ _ _ (by decide)
    unfold findQual
    rw [e1, dropLit?_self]
  · show findQual ("reporter:".data ++ x) = some (Qual.reporter, x)
    have e1 : dropLit? "before:".data ("reporter:".data ++ x) = none := by
      rw [show "reporter:".data ++ x = 'r' :: ("eporter:".data ++ x) from rfl,
        show "before:".data = 'b' :: "efore:".data from rfl]
      exact dropLit?_head_ne _ _ _ _ (by decide)
    have e2 : dropLit? "after:".data ("reporter:".data ++ x) = none := by
      rw [show "reporter:".data ++ x = 'r' :: ("eporter:".data ++ x) from rfl,
        show "after:".data = 'a' :: "fter:".data from rfl]
      exact dropLit?_head_ne _ _ _ _ (by decide)
    unfold findQual
    rw [e1, e2, dropLit?_self]

lemma swqt_char (c : Char) (l : List Char)
    (h1 : c ≠ 'b') (h2 : c ≠ 'a') (h3 : c ≠ 'r') :
    startsWithQualTok ⟨c :: l⟩ = false := by
  unfold startsWithQualTok
  rw [show (String.mk (c :: l)).data = c :: l from rfl,
    findQual_none_of_head c l h1 h2 h3]

lemma takeWhile_trimR_space (r : List Char)
    (h : ∀ c, r.head? = some c → isJsSpace c = true) :
    (trimR r).takeWhile (fun c => !(isJsSpace c)) = [] := by
  rcases ht : trimR r with _ | ⟨d, m⟩
  · rfl
  · have hd : r.head? = some d := trimR_head? r d (by rw [ht]; rfl)
    simp [List.takeWhile_cons, h d hd]

/-- Inputs whose trimmed form starts with a non-`b`/`a`/`r` character never
match the filter regex; the controller falls back to plain text. -/
lemma swqt_upper_case (w rest : String)
    (hw : ∀ c ∈ w.data, isJsSpace c = false) (hne : w.data ≠ [])
    (hhd : ∀ c, w.data.head? = some c → (c ≠ 'b' ∧ c ≠ 'a' ∧ c ≠ 'r')) :
    startsWithQualTok (jsTrim (w ++ rest)) = false := by
  have hd : (jsTrim (w ++ rest)).data = w.data ++ trimR rest.data := by
    show trimList ((w ++ rest).data) = _
    rw [String.data_append]
    exact trimList_lit _ _ hw hne
  rcases he : w.data with _ | ⟨c, m⟩
  · exact absurd he hne
  · have hc := hhd c (by rw [he]; rfl)
    have hX : jsTrim (w ++ rest) = ⟨c :: (m ++ trimR rest.data)⟩ := by
      apply congrArg String.mk
      show (jsTrim (w ++ rest)).data = _
      rw [hd, he]
      rfl
    rw [hX]
    exact swqt_char _ _ hc.1 hc.2.1 hc.2.2

/-- A qualifier whose colon is followed by whitespace (or end of input)
yields an empty `\S+` token, so the regex does not match. -/
lemma swqt_qual_empty_tok (q : Qual) (rest : String)
    (h : ∀ c, rest.data.head? = some c → isJsSpace c = true) :
    startsWithQualTok (jsTrim (qualWord q ++ ":" ++ rest)) = false := by
  have hd : (jsTrim (qualWord q ++ ":" ++ rest)).data
      = (qualWord q ++ ":").data ++ trimR rest.data := by
    show trimList (((qualWord q ++ ":") ++ rest).data) = _
    rw [String.data_append]
    exact trimList_lit _ _ (by cases q <;> decide) (by cases q <;> decide)
  have hX : jsTrim (qualWord q ++ ":" ++ rest)
      = ⟨(qualWord q ++ ":").data ++ trimR rest.data⟩ := congrArg String.mk hd
  rw [hX]
  unfold startsWithQualTok
  rw [show (String.mk ((qualWord q ++ ":").data ++ trimR rest.data)).data
      = (qualWord q ++ ":").data ++ trimR rest.data from rfl]
  rw [findQual_qualColon]
  show (!((trimR rest.data).takeWhile (fun c => !(isJsSpace c))).isEmpty) = false
  rw [takeWhile_trimR_space rest.data h]
  rfl

/-! ## Claims about the filter parser -/

/-- C4: for every input string, at most one of `beforeDate`, `afterDate`,
`reporterEmail` is set in the parsed filter (the regex grammar recognizes a
single qualifier, and each branch fills a single field). -/
theorem c4_at_most_one_qualifier (tz : Int) (s : String) :
    atMostOneQualSet (parseFilters tz s) := by
  unfold atMostOneQualSet parseFilters
  rcases hm : matchFilter (trimList s.data) with _ | ⟨q, tok, rem⟩
  · exact Or.inl ⟨rfl, rfl⟩
  · cases q
    · exact Or.inr (Or.inr ⟨rfl, rfl⟩)
    · exact Or.inr (Or.inl ⟨rfl, rfl⟩)
    · exact Or.inl ⟨rfl, rfl⟩

/-- C5 as stated is false on the code: a raw input with leading whitespace
does not itself start with a qualifier, yet after the controller's `trim()`
the qualifier does match, so `reporterEmail` is set and `searchValue` is not
the whole lowercased input. -/
theorem c5_counterexample :
    startsWithQualTok " reporter:a@b.com" = false ∧
    (parseFilters 0 " reporter:a@b.com").reporterEmail = some "a@b.com" ∧
    (parseFilters 0 " reporter:a@b.com").searchValue = some "" := by
  decide

/-- C5 (amended): for every string whose TRIMMED form does not start with a
recognized qualifier, a colon and a non-empty token, the parse is pure free
text: `searchValue = trim(lower(s))` and the three qualifier fields are
unset. -/
theorem c5_plain_text_fallback (tz : Int) (s : String)
    (h : startsWithQualTok (jsTrim s) = false) :
    (parseFilters tz s).beforeDate = none ∧
    (parseFilters tz s).afterDate = none ∧
    (parseFilters tz s).reporterEmail = none ∧
    (parseFilters tz s).searchValue = some (jsTrim (jsLower s)) := by
  rw [plain_fallback tz s h]
  exact ⟨rfl, rfl, rfl, by rw [jsLower_jsTrim]⟩

theorem c5_plain_text_fallback_witness :
    startsWithQualTok (jsTrim "hello WORLD ") = false ∧
    ((parseFilters 0 "hello WORLD ").beforeDate = none ∧
     (parseFilters 0 "hello WORLD ").afterDate = none ∧
     (parseFilters 0 "hello WORLD ").reporterEmail = none ∧
     (parseFilters 0 "hello WORLD ").searchValue = some (jsTrim (jsLower "hello WORLD "))) :=
  ⟨by decide, c5_plain_text_fallback 0 "hello WORLD " (by decide)⟩

/-- C2: for a runtime in UTC (timezone offset 0), `after:01/01/2024` parses
to the instant 01 Jan 2024 23:59:59.999 UTC (the last millisecond of that
calendar day) and an empty `searchValue`. -/
theorem c2_after_end_of_day (tz : Int) (htz : tz = 0) :
    (parseFilters tz "after:01/01/2024").afterDate =
      some (utcMs 2024 1 1 23 59 59 999) ∧
    (parseFilters tz "after:01/01/2024").searchValue = some "" := by
  subst htz
  decide

theorem c2_after_end_of_day_witness :
    ((parseFilters 0 "after:01/01/2024").afterDate =
       some (utcMs 2024 1 1 23 59 59 999) ∧
     (parseFilters 0 "after:01/01/2024").searchValue = some "") ∧
    utcMs 2024 1 1 23 59 59 999 = 1704153599999 :=
  ⟨c2_after_end_of_day 0 rfl, by decide⟩

/-- C6: when a `before:`/`after:` token fails to parse as `dd/MM/yyyy`, the
date field stays unset and the remainder still becomes `searchValue` (the
total function `parseFilters` cannot throw). -/
theorem c6_invalid_date_degrades (tz : Int) (s : String) (q : Qual)
    (tok rem : List Char)
    (hq : q = Qual.before ∨ q = Qual.after)
    (hm : matchFilter (trimList s.data) = some (q, tok, rem))
    (hd : dateFromToken tok = none) :
    (parseFilters tz s).beforeDate = none ∧
    (parseFilters tz s).afterDate = none ∧
    (parseFilters tz s).searchValue = some ⟨(trimList rem).map jsLowerChar⟩ := by
  unfold parseFilters
  rcases hq with rfl | rfl <;> rw [hm]
  · refine ⟨?_, rfl, rfl⟩
    show (dateFromToken tok).map (fun ymd => localMidnightMs tz ymd) = none
    rw [hd]
    rfl
  · refine ⟨rfl, ?_, rfl⟩
    show (dateFromToken tok).map (fun ymd => endOfUtcDay (localMidnightMs tz ymd)) = none
    rw [hd]
    rfl

theorem c6_invalid_date_degrades_witness :
    (parseFilters 0 "before:not-a-date foo").beforeDate = none ∧
    (parseFilters 0 "before:not-a-date foo").afterDate = none ∧
    (parseFilters 0 "before:not-a-date foo").searchValue = some "foo" := by
  have h := c6_invalid_date_degrades 0 "before:not-a-date foo" Qual.before
    "not-a-date".data " foo".data (Or.inl rfl) (by decide) (by decide)
  exact ⟨h.1, h.2.1, h.2.2⟩

/-- C1 as stated is false on the code: with an empty token after the colon
(`"before: foo"`) the regex `(\S+)` does not match at all, so the remainder
after the colon does NOT become `searchValue`; instead the whole input is
treated as free text and the qualifier word survives inside `searchValue`. -/
theorem c1_counterexample :
    (parseFilters 0 "before: foo").searchValue = some "before: foo" ∧
    (parseFilters 0 "before: foo").searchValue ≠ some "foo" ∧
    (parseFilters 0 "before: foo").beforeDate = none := by
  decide

/-- C1 (amended): a recognized qualifier word followed by `:` and an empty
token (end of input or whitespace next) fails the grammar entirely, so the
date fields are left unset and the WHOLE input (trimmed, lowercased),
including the qualifier word, becomes `searchValue`. -/
theorem c1_empty_token_plain_text (tz : Int) (q : Qual) (rest : String)
    (h : headAllSpace rest = true) :
    (parseFilters tz (qualWord q ++ ":" ++ rest)).beforeDate = none ∧
    (parseFilters tz (qualWord q ++ ":" ++ rest)).afterDate = none ∧
    (parseFilters tz (qualWord q ++ ":" ++ rest)).reporterEmail = none ∧
    (parseFilters tz (qualWord q ++ ":" ++ rest)).searchValue
      = some (jsLower (jsTrim (qualWord q ++ ":" ++ rest))) := by
  have h2 : ∀ c, rest.data.head? = some c → isJsSpace c = true := by
    intro c hc
    unfold headAllSpace at h
    rcases he : rest.data with _ | ⟨c2, m⟩
    · rw [he] at hc
      exact absurd hc (by simp)
    · rw [he] at h hc
      injection hc with hc2
      subst hc2
      exact h
  rw [plain_fallback tz _ (swqt_qual_empty_tok q rest h2)]
  exact ⟨rfl, rfl, rfl, rfl⟩

theorem c1_empty_token_plain_text_witness :
    headAllSpace " foo" = true ∧
    ((parseFilters 0 (qualWord Qual.before ++ ":" ++ " foo")).beforeDate = none ∧
     (parseFilters 0 (qualWord Qual.before ++ ":" ++ " foo")).afterDate = none ∧
     (parseFilters 0 (qualWord Qual.before ++ ":" ++ " foo")).reporterEmail = none ∧
     (parseFilters 0 (qualWord Qual.before ++ ":" ++ " foo")).searchValue
       = some (jsLower (jsTrim (qualWord Qual.before ++ ":" ++ " foo")))) :=
  ⟨by decide, c1_empty_token_plain_text 0 Qual.before " foo" (by decide)⟩

/-- C10: qualifier words are matched case-sensitively; a capitalized or
upper-cased qualifier prefix fails the grammar and the whole input becomes
plain free text (trimmed, lowercased), with every qualifier field unset. -/
theorem c10_case_sensitive (tz : Int) (q rest : String)
    (hq : q ∈ (["Before", "After", "Reporter", "BEFORE", "AFTER", "REPORTER"] : List String)) :
    parseFilters tz (q ++ ":" ++ rest) =
      { beforeDate := none, afterDate := none, reporterEmail := none,
        searchValue := some (jsLower (jsTrim (q ++ ":" ++ rest))) } := by
  apply plain_fallback
  fin_cases hq <;> (apply swqt_upper_case <;> decide)

theorem c10_case_sensitive_witness :
    parseFilters 0 ("Before" ++ ":" ++ "01/01/2024") =
      { beforeDate := none, afterDate := none, reporterEmail := none,
        searchValue := some (jsLower (jsTrim ("Before" ++ ":" ++ "01/01/2024"))) } :=
  c10_case_sensitive 0 "Before" "01/01/2024" (by decide)

/-! ## Lemmas about the aggregation passes -/

lemma insDesc_perm (x : String × Nat) (l : List (String × Nat)) :
    List.Perm (insDesc x l) (x :: l) := by
  induction l with
  | nil => exact List.Perm.refl _
  | cons y ys ih =>
    unfold insDesc
    by_cases hxy : x.2 < y.2
    · rw [if_pos hxy]
      exact (ih.cons y).trans (List.Perm.swap x y ys)
    · rw [if_neg hxy]

lemma sortDesc_perm (l : List (String × Nat)) : List.Perm (sortDesc l) l := by
  induction l with
  | nil => exact List.Perm.refl _
  | cons x xs ih => exact (insDesc_perm x (sortDesc xs)).trans (ih.cons x)

lemma insDesc_sorted (x : String × Nat) (l : List (String × Nat))
    (h : l.Pairwise (fun a b => b.2 ≤ a.2)) :
    (insDesc x l).Pairwise (fun a b => b.2 ≤ a.2) := by
  induction l with
  | nil => simp [insDesc]
  | cons y ys ih =>
    rcases List.pairwise_cons.mp h with ⟨hy, hys⟩
    unfold insDesc
    by_cases hxy : x.2 < y.2
    · rw [if_pos hxy]
      refine List.pairwise_cons.mpr ⟨?_, ih hys⟩
      intro z hz
      rcases List.mem_cons.mp ((insDesc_perm x ys).mem_iff.mp hz) with rfl | hz2
      · exact le_of_lt hxy
      · exact hy z hz2
    · rw [if_neg hxy]
      have hx2 : y.2 ≤ x.2 := le_of_not_lt hxy
      refine List.pairwise_cons.mpr ⟨?_, h⟩
      intro z hz
      rcases List.mem_cons.mp hz with rfl | hz2
      · exact hx2
      · exact le_trans (hy z hz2) hx2

lemma sortDesc_sorted (l : List (String × Nat)) :
    (sortDesc l).Pairwise (fun a b => b.2 ≤ a.2) := by
  induction l with
  | nil => simp [sortDesc]
  | cons x xs ih => exact insDesc_sorted x (sortDesc xs) ih

lemma insDesc_filter_count (x : String × Nat) (l : List (String × Nat)) (c : Nat) :
    (insDesc x l).filter (fun p => p.2 == c)
      = if x.2 = c then x :: l.filter (fun p => p.2 == c)
        else l.filter (fun p => p.2 == c) := by
  induction l with
  | nil =>
    unfold insDesc
    by_cases hx : x.2 = c <;> simp [List.filter_cons, hx]
  | cons y ys ih =>
    unfold insDesc
    by_cases hxy : x.2 < y.2
    · rw [if_pos hxy]
      by_cases hx : x.2 = c
      · have hy2 : (y.2 == c) = false := by
          subst hx
          exact beq_eq_false_iff_ne.mpr (Nat.ne_of_gt hxy)
        rw [if_pos hx]
        rw [List.filter_cons, hy2, List.filter_cons, hy2]
        simp only [if_neg Bool.false_ne_true]
        rw [ih, if_pos hx]
      · rw [if_neg hx]
        rw [List.filter_cons, List.filter_cons, ih, if_neg hx]
    · rw [if_neg hxy]
      by_cases hx : x.2 = c <;>
        simp [List.filter_cons, hx]

lemma sortDesc_filter_count (l : List (String × Nat)) (c : Nat) :
    (sortDesc l).filter (fun p => p.2 == c) = l.filter (fun p => p.2 == c) := by
  induction l with
  | nil => rfl
  | cons x xs ih =>
    show (insDesc x (sortDesc xs)).filter _ = _
    rw [insDesc_filter_count]
    by_cases hx : x.2 = c
    · rw [if_pos hx, ih, List.filter_cons, if_pos (by simp [hx])]
    · rw [if_neg hx, ih, List.filter_cons, if_neg (by simp [hx])]

lemma bump_keys (acc : List (String × Nat)) (k : String) :
    (bump acc k).map Prod.fst =
      if k ∈ acc.map Prod.fst then acc.map Prod.fst else acc.map Prod.fst ++ [k] := by
  induction acc with
  | nil => simp [bump]
  | cons p rest ih =>
    obtain ⟨k2, n⟩ := p
    unfold bump
    by_cases hk : k2 = k
    · subst hk
      simp
    · rw [if_neg hk]
      simp only [List.map_cons, ih]
      by_cases hmem : k ∈ rest.map Prod.fst
      · simp [hmem, Ne.symm hk]
      · simp [hmem, Ne.symm hk]

lemma bump_keys_toFinset (acc : List (String × Nat)) (k : String) :
    ((bump acc k).map Prod.fst).toFinset = insert k (acc.map Prod.fst).toFinset := by
  rw [bump_keys]
  by_cases hmem : k ∈ acc.map Prod.fst
  · rw [if_pos hmem]
    exact (Finset.insert_eq_self.mpr (List.mem_toFinset.mpr hmem)).symm
  · rw [if_neg hmem]
    ext a
    simp [or_comm]

lemma bump_keys_nodup (acc : List (String × Nat)) (k : String)
    (h : (acc.map Prod.fst).Nodup) : ((bump acc k).map Prod.fst).Nodup := by
  rw [bump_keys]
  by_cases hmem : k ∈ acc.map Prod.fst
  · rw [if_pos hmem]
    exact h
  · rw [if_neg hmem]
    simp [List.nodup_append, h, hmem]

lemma foldl_bump_keys_toFinset (es : List String) (acc : List (String × Nat)) :
    ((es.foldl bump acc).map Prod.fst).toFinset
      = (acc.map Prod.fst).toFinset ∪ es.toFinset := by
  induction es generalizing acc with
  | nil => simp
  | cons e es ih =>
    show ((es.foldl bump (bump acc e)).map Prod.fst).toFinset = _
    rw [ih, bump_keys_toFinset]
    simp [Finset.insert_union, Finset.union_insert]

lemma foldl_bump_keys_nodup (es : List String) (acc : List (String × Nat))
    (h : (acc.map Prod.fst).Nodup) : ((es.foldl bump acc).map Prod.fst).Nodup := by
  induction es generalizing acc with
  | nil => exact h
  | cons e es ih => exact ih _ (bump_keys_nodup acc e h)

lemma reporterCounts_length (ts : List Ticket) :
    (reporterCounts ts).length = (ts.map (fun t => t.userEmail)).dedup.length := by
  have h1 : reporterCounts ts = (ts.map (fun t => t.userEmail)).foldl bump [] :=
    (List.foldl_map (fun t : Ticket => t.userEmail) bump ts []).symm
  have hnod : (((ts.map (fun t => t.userEmail)).foldl bump []).map Prod.fst).Nodup :=
    foldl_bump_keys_nodup _ [] (by simp)
  have hfin : (((ts.map (fun t => t.userEmail)).foldl bump []).map Prod.fst).toFinset
      = (ts.map (fun t => t.userEmail)).toFinset := by
    rw [foldl_bump_keys_toFinset]
    simp
  calc (reporterCounts ts).length
      = (((ts.map (fun t => t.userEmail)).foldl bump []).map Prod.fst).length := by
        rw [h1, List.length_map]
    _ = (((ts.map (fun t => t.userEmail)).foldl bump []).map Prod.fst).toFinset.card :=
        (List.toFinset_card_of_nodup hnod).symm
    _ = (ts.map (fun t => t.userEmail)).toFinset.card := by rw [hfin]
    _ = (ts.map (fun t => t.userEmail)).dedup.length := List.card_toFinset _

lemma msum_cons (p : String × Nat) (l : List (String × Nat)) (name : String) :
    msum (p :: l) name = (if p.1 = name then p.2 else 0) + msum l name := by
  unfold msum
  rw [List.filter_cons]
  by_cases h : p.1 = name
  · simp [h]
  · simp [h]

lemma msum_bump (acc : List (String × Nat)) (k name : String) :
    msum (bump acc k) name = msum acc name + (if k = name then 1 else 0) := by
  induction acc with
  | nil =>
    show msum [(k, 1)] name = msum [] name + _
    rw [msum_cons]
    by_cases hk : k = name <;> simp [msum, hk]
  | cons p rest ih =>
    obtain ⟨k2, n⟩ := p
    unfold bump
    by_cases hk2 : k2 = k
    · rw [if_pos hk2]
      rw [msum_cons, msum_cons]
      subst hk2
      by_cases hn : k2 = name <;> simp [hn] <;> omega
    · rw [if_neg hk2]
      rw [msum_cons, msum_cons, ih]
      omega

lemma msum_foldl_bump (ks : List String) (acc : List (String × Nat)) (name : String) :
    msum (ks.foldl bump acc) name = msum acc name + ks.count name := by
  induction ks generalizing acc with
  | nil => simp
  | cons k ks ih =>
    show msum (ks.foldl bump (bump acc k)) name = _
    rw [ih, msum_bump, List.count_cons]
    by_cases h : k = name
    · simp [h]
      omega
    · simp [h, Ne.symm h]

lemma msum_perm {l1 l2 : List (String × Nat)} (h : List.Perm l1 l2) (name : String) :
    msum l1 name = msum l2 name := by
  unfold msum
  exact ((h.filter _).map _).sum_eq

lemma labelCountsList_eq (ts : List Ticket) :
    labelCountsList ts = (allLabels ts).foldl bump [] := by
  suffices h : ∀ (ts : List Ticket) (acc : List (String × Nat)),
      ts.foldl (fun acc t => (t.labels.getD []).foldl bump acc) acc
        = (allLabels ts).foldl bump acc by
    exact h ts []
  intro ts
  induction ts with
  | nil =>
    intro acc
    rfl
  | cons t rest ih =>
    intro acc
    show rest.foldl _ ((t.labels.getD []).foldl bump acc)
      = (t.labels.getD [] ++ allLabels rest).foldl bump acc
    rw [List.foldl_append]
    exact ih _

lemma jround_eq (x : ℚ) : jround x = ⌊x + 1 / 2⌋ := rfl

lemma avg_empty (now : Int) : avgTicketsPerDayOf now [] = 0 := by
  norm_num [avgTicketsPerDayOf, minCreation, jround_eq]

lemma avg_c3_two_days : avgTicketsPerDayOf (2 * 86400000) [c3Ticket] = 1 / 2 := by
  norm_num [avgTicketsPerDayOf, minCreation, c3Ticket, jround_eq, max_def]

lemma avg_c3_four_days : avgTicketsPerDayOf (4 * 86400000) [c3Ticket] = 3 / 10 := by
  norm_num [avgTicketsPerDayOf, minCreation, c3Ticket, jround_eq, max_def]

/-! ## Claims about the aggregation engine -/

/-- C7: aggregating the empty ticket list returns (without any division by
zero) zero totals, zero unique reporters, the `"None"` sentinel, average 0,
and empty label/timeline sequences. -/
theorem c7_empty_aggregate (tz now : Int) :
    aggregate tz now [] =
      { labelData := [], timeline := [], topReporters := [],
        stats := { totalTickets := 0, uniqueReporters := 0,
                   mostCommonLabel := "None", avgTicketsPerDay := 0 } } := by
  unfold aggregate
  rw [avg_empty now]
  rfl

/-- C3 as stated is false on the code: `aggregate` reads `Date.now()` for
`avgTicketsPerDay`, so two calls on the identical one-ticket list, made two
days resp. four days after the ticket's creation, disagree (0.5 vs 0.3). -/
theorem c3_counterexample :
    aggregate 0 (2 * 86400000) [c3Ticket] ≠ aggregate 0 (4 * 86400000) [c3Ticket] := by
  intro h
  have e1 : (aggregate 0 (2 * 86400000) [c3Ticket]).stats.avgTicketsPerDay = 1 / 2 :=
    avg_c3_two_days
  have e2 : (aggregate 0 (4 * 86400000) [c3Ticket]).stats.avgTicketsPerDay = 3 / 10 :=
    avg_c3_four_days
  rw [h, e2] at e1
  norm_num at e1

/-- C3 (amended): `aggregate` is deterministic given the ticket list AND the
`Date.now()` reading; every output field except `stats.avgTicketsPerDay` is
independent of the call instant. -/
theorem c3_pure_except_avg (tz : Int) (ts : List Ticket) (n1 n2 : Int) :
    (aggregate tz n1 ts).labelData = (aggregate tz n2 ts).labelData ∧
    (aggregate tz n1 ts).timeline = (aggregate tz n2 ts).timeline ∧
    (aggregate tz n1 ts).topReporters = (aggregate tz n2 ts).topReporters ∧
    (aggregate tz n1 ts).stats.totalTickets = (aggregate tz n2 ts).stats.totalTickets ∧
    (aggregate tz n1 ts).stats.uniqueReporters = (aggregate tz n2 ts).stats.uniqueReporters ∧
    (aggregate tz n1 ts).stats.mostCommonLabel = (aggregate tz n2 ts).stats.mostCommonLabel := by
  simp [aggregate]

/-- C8: for every 15-ticket list with 12 distinct reporter emails, the
leaderboard is truncated to exactly 10 entries, sorted descending by count
(ties keep first-seen order: filtering the stable sort at any count value
preserves the insertion-ordered accumulator), while `uniqueReporters` is the
pre-truncation count 12. -/
theorem c8_top_reporters (tz now : Int) (ts : List Ticket)
    (h15 : ts.length = 15)
    (h12 : (ts.map (fun t => t.userEmail)).dedup.length = 12) :
    (aggregate tz now ts).topReporters.length = 10 ∧
    (aggregate tz now ts).topReporters.Pairwise (fun a b => b.2 ≤ a.2) ∧
    (aggregate tz now ts).stats.uniqueReporters = 12 ∧
    (∀ c : Nat, (sortDesc (reporterCounts ts)).filter (fun p => p.2 == c)
      = (reporterCounts ts).filter (fun p => p.2 == c)) := by
  have hlen : (reporterCounts ts).length = 12 := by
    rw [reporterCounts_length, h12]
  simp only [aggregate, topReportersOf]
  refine ⟨?_, ?_, hlen, fun c => sortDesc_filter_count _ c⟩
  · rw [List.length_take, (sortDesc_perm _).length_eq, hlen]
    decide
  · exact List.Pairwise.sublist (List.take_sublist _ _) (sortDesc_sorted _)

theorem c8_top_reporters_witness :
    (c8Tickets.length = 15 ∧ (c8Tickets.map (fun t => t.userEmail)).dedup.length = 12) ∧
    ((aggregate 0 0 c8Tickets).topReporters.length = 10 ∧
     (aggregate 0 0 c8Tickets).topReporters.Pairwise (fun a b => b.2 ≤ a.2) ∧
     (aggregate 0 0 c8Tickets).stats.uniqueReporters = 12) := by
  have h := c8_top_reporters 0 0 c8Tickets (by decide) (by decide)
  exact ⟨⟨by decide, by decide⟩, h.1, h.2.1, h.2.2.1⟩

/-- C9: `labelData` credits each label with exactly its number of occurrences
across all tickets (`msum` sums the counts filed under a name), is sorted
descending by count with ties in first-encountered order (filtering the
stable sort at any count preserves the insertion-ordered accumulator), and on
three `["xss"]` tickets plus one `["xss","sqli"]` ticket it is exactly
`[(xss, 4), (sqli, 1)]`. -/
theorem c9_label_histogram :
    (∀ (tz now : Int) (ts : List Ticket) (name : String),
      msum (aggregate tz now ts).labelData name = (allLabels ts).count name ∧
      (aggregate tz now ts).labelData.Pairwise (fun a b => b.2 ≤ a.2) ∧
      (∀ c : Nat, (aggregate tz now ts).labelData.filter (fun p => p.2 == c)
        = (labelCountsList ts).filter (fun p => p.2 == c))) ∧
    (aggregate 0 0 c9Tickets).labelData = [("xss", 4), ("sqli", 1)] := by
  constructor
  · intro tz now ts name
    simp only [aggregate, labelDataOf]
    refine ⟨?_, sortDesc_sorted _, fun c => sortDesc_filter_count _ c⟩
    rw [msum_perm (sortDesc_perm _) name, labelCountsList_eq, msum_foldl_bump]
    simp [msum]
  · decide

